import Mathlib

/-!
Shallow embedding of the "Forest Apple Collector" arcade game
(src/game.py, with the classifier wrapper of src/model.py treated as an
external collaborator), together with theorems checking the natural-language
specification against the code.

The game's per-frame logic is pure once the frame inputs (time delta, pressed
keys, keyboard events, the random draws used by spawning, and the classifier's
return value) are made explicit, so the embedding passes a `FrameInput` record
into a frame-step function over a `GameState` record.  Pixel coordinates are
pygame `Rect` integers; assigning a float to a rect coordinate truncates
toward zero, modeled by `truncQ`.  Time and speeds are rationals.  The only
real-number analysis is the flying-effect arc, which uses `Real.sin` exactly
as `game.py` uses `math.sin`.
-/

namespace AppleGame

/-- Screen width in pixels (game.py line 11). -/
def WIDTH : Int := 960

/-- Screen height in pixels (game.py line 11). -/
def HEIGHT : Int := 600

/-- Ground line: HEIGHT - 100 (game.py line 13). -/
def GROUND_Y : Int := HEIGHT - 100

/-- Walking speed left/right (game.py line 14). -/
def BOY_SPEED : ℚ := 300

/-- Base speed at which apples fall (game.py line 15). -/
def APPLE_FALL_SPEED : Int := 200

/-- Seconds between apple spawns, 1.5 (game.py line 16). -/
def APPLE_SPAWN_RATE : ℚ := 3/2

/-- Initial number of lifelines (game.py line 17). -/
def LIFELINES : Nat := 3

/-- Truncation toward zero of a rational, as happens when a Python float is
assigned to a pygame `Rect` coordinate (C integer conversion). -/
def truncQ (q : ℚ) : Int := if 0 ≤ q then ⌊q⌋ else ⌈q⌉

/-- Axis-aligned pygame rectangle: left edge `x`, top edge `y`, width, height. -/
structure Rect where
  x : Int
  y : Int
  w : Int
  h : Int
  deriving DecidableEq, Repr

/-- Center of a pygame rect: `(x + w // 2, y + h // 2)`. -/
def Rect.center (r : Rect) : Int × Int := (r.x + r.w / 2, r.y + r.h / 2)

/-- Strict-overlap test of `pygame.sprite.collide_rect` / `Rect.colliderect`:
the rectangles intersect with positive area. -/
def Rect.colliderect (a b : Rect) : Bool :=
  decide (a.x < b.x + b.w) && decide (a.y < b.y + b.h) &&
  decide (a.x + a.w > b.x) && decide (a.y + a.h > b.y)

/-- Pressed state of the movement keys read by `Boy.update`; `left` stands for
K_LEFT or K_a, `right` for K_RIGHT or K_d (game.py lines 300, 307). -/
structure Keys where
  left : Bool
  right : Bool
  deriving DecidableEq, Repr

/-- The boy character (game.py class `Boy`).  Only `rect.x` ever changes; the
rect's top stays `GROUND_Y - 160` and its size stays 100 x 160, so the record
keeps `x` alone.  `image` is render-only and omitted. -/
structure Boy where
  x : Int
  direction : Int
  animation_state : String
  animation_timer : ℚ
  picking_timer : ℚ
  deriving DecidableEq, Repr

/-- Boy at construction (game.py lines 197-205): idle, facing right, rect
placed with midbottom `(WIDTH // 2, GROUND_Y)` and size 100 x 160. -/
def Boy.init : Boy :=
  { x := WIDTH / 2 - 100 / 2
    direction := 1
    animation_state := "idle"
    animation_timer := 0
    picking_timer := 0 }

/-- The boy's bounding rect: size 100 x 160 with bottom on the ground line. -/
def Boy.rect (b : Boy) : Rect :=
  { x := b.x, y := GROUND_Y - 160, w := 100, h := 160 }

/-- One tick of `Boy.update(dt)` (game.py lines 288-319): advance both timers,
expire a picking animation once its timer passes 0.4 s, then move left/right at
`BOY_SPEED` while a key is held (the float position is truncated into the rect,
then clamped to `[50, WIDTH - 50]`), switching to "walking" unless picking;
with no key held, "walking" falls back to "idle". -/
def Boy.update (keys : Keys) (dt : ℚ) (b : Boy) : Boy :=
  let b1 : Boy := { b with animation_timer := b.animation_timer + dt
                           picking_timer := b.picking_timer + dt }
  let b2 : Boy :=
    if b1.animation_state = "picking" ∧ b1.picking_timer > 2/5 then
      { b1 with animation_state := "idle", picking_timer := 0 }
    else b1
  if keys.left then
    let moved := truncQ ((b2.x : ℚ) - BOY_SPEED * dt)
    let st := if b2.animation_state ≠ "picking" then "walking" else b2.animation_state
    { b2 with x := max 50 (min (WIDTH - 50) moved), direction := -1, animation_state := st }
  else if keys.right then
    let moved := truncQ ((b2.x : ℚ) + BOY_SPEED * dt)
    let st := if b2.animation_state ≠ "picking" then "walking" else b2.animation_state
    { b2 with x := max 50 (min (WIDTH - 50) moved), direction := 1, animation_state := st }
  else
    if b2.animation_state = "walking" then { b2 with animation_state := "idle" } else b2

/-- Trigger the picking animation (game.py lines 321-324): unconditionally set
the state to "picking" and restart its timer. -/
def Boy.play_pick_animation (b : Boy) : Boy :=
  { b with animation_state := "picking", picking_timer := 0 }

/-- A falling apple (game.py class `Apple`).  `base_image` and `image` are
render-only and omitted; the rect's size comes from the random radius drawn in
`_create_surface`. -/
structure Apple where
  quality : String
  rect : Rect
  collected : Bool
  fall_speed : Int
  deriving DecidableEq, Repr

/-- Constructor `Apple.__init__(x_position)` (game.py lines 330-337) with its random draws
made explicit: `qualityDraw` is the `random.random()` value deciding quality
("good" exactly when it is below 0.65), `jitter` is `random.randint(-30, 30)`
added to the base fall speed, and `radius` is the `random.randint(28, 36)`
drawn in `_create_surface`, which fixes the sprite surface (and hence rect)
size at `(2 * radius + 20, 2 * radius + 30)`; the rect is centered at
`(x_position, -50)`. -/
def Apple.spawn (x_position : Int) (qualityDraw : ℚ) (jitter radius : Int) : Apple :=
  let w := 2 * radius + 20
  let h := 2 * radius + 30
  { quality := if qualityDraw < 13/20 then "good" else "damaged"
    rect := { x := x_position - w / 2, y := -50 - h / 2, w := w, h := h }
    collected := false
    fall_speed := APPLE_FALL_SPEED + jitter }

/-- Method `Apple.update(dt)` (game.py lines 383-388): fall by `fall_speed * dt`
(truncated into the rect), then `kill()` — here `none` — once the rect's top
is below the screen. -/
def Apple.update (dt : ℚ) (a : Apple) : Option Apple :=
  let y2 := truncQ ((a.rect.y : ℚ) + (a.fall_speed : ℚ) * dt)
  let a2 : Apple := { a with rect := { a.rect with y := y2 } }
  if a2.rect.y > HEIGHT then none else some a2

/-- Flying-apple effect (game.py class `AppleFlyEffect`).  The stored `pos`
and `rect.center` are recomputed by `update` as a pure function of `elapsed`
and the fields below (game.py lines 188-191); that display position is modeled
separately by `effectCenter`.  The carried apple image is render-only and
omitted. -/
structure FlyEffect where
  start_pos : ℚ × ℚ
  end_pos : ℚ × ℚ
  duration : ℚ
  elapsed : ℚ
  deriving DecidableEq, Repr

/-- Constructor `AppleFlyEffect.__init__(start_pos, end_pos, apple_image)` (game.py lines
171-179): fixed duration 0.6 s, elapsed time zero. -/
def FlyEffect.spawn (s e : Int × Int) : FlyEffect :=
  { start_pos := ((s.1 : ℚ), (s.2 : ℚ))
    end_pos := ((e.1 : ℚ), (e.2 : ℚ))
    duration := 3/5
    elapsed := 0 }

/-- Method `AppleFlyEffect.update(dt)` (game.py lines 181-191): advance elapsed time
and `kill()` — here `none` — once it reaches the duration; otherwise the
effect survives with the display position recomputed (see `effectCenter`). -/
def FlyEffect.update (dt : ℚ) (fx : FlyEffect) : Option FlyEffect :=
  let e2 := fx.elapsed + dt
  if e2 ≥ fx.duration then none else some { fx with elapsed := e2 }

/-- Straight-line blend `start_pos.lerp(end_pos, t)` of `pygame.math.Vector2`
(game.py line 189): `a + (b - a) * t` componentwise. -/
def lerpPos (s e : ℝ × ℝ) (t : ℝ) : ℝ × ℝ :=
  (s.1 + (e.1 - s.1) * t, s.2 + (e.2 - s.2) * t)

/-- Amplitude of the effect's vertical arc, 60 (game.py line 190). -/
def arcAmp : ℝ := 60

/-- Vertical arc term `60 * sin(t * pi)` (game.py line 190). -/
noncomputable def arcOffset (t : ℝ) : ℝ := arcAmp * Real.sin (t * Real.pi)

/-- Display center of a flying effect at progress `t = elapsed / duration`
(game.py lines 188-191, before the int truncation of `rect.center`): the lerp
position displaced upward — y decreasing — by the arc term. -/
noncomputable def effectCenter (s e : ℝ × ℝ) (t : ℝ) : ℝ × ℝ :=
  ((lerpPos s e t).1, (lerpPos s e t).2 - arcOffset t)

/-- One classifier result as returned by
`AppleQualityClassifier.classify_surface` (model.py lines 73-82): label,
confidence, raw probabilities. -/
abbrev ClassifierResult := String × ℚ × List ℚ

/-- The basket is created with rect center `(100, 80)` (game.py line 420) and
`update_apples` redraws only its image, so the center never changes. -/
def basketCenter : Int × Int := (100, 80)

/-- The game session state mutated by `Game.reset`, `Game.run` and
`Game.handle_collisions` (game.py class `Game`).  Render-only members
(screen, clock, background, fonts, `all_sprites`, the basket's image and
apple count) and the loaded classifier are omitted; apples and effects are
lists in pygame `Group` insertion order. -/
structure GameState where
  boy : Boy
  apples : List Apple
  effects : List FlyEffect
  score : Nat
  good_collected : Nat
  rotten_collected : Nat
  lifelines : Nat
  elapsed : ℚ
  last_apple_spawn : ℚ
  state : String
  deriving DecidableEq, Repr

/-- The state produced by `Game.reset` (game.py lines 413-430): fresh boy,
empty collections, zeroed counters, full lifelines, state "playing". -/
def initialState : GameState :=
  { boy := Boy.init
    apples := []
    effects := []
    score := 0
    good_collected := 0
    rotten_collected := 0
    lifelines := LIFELINES
    elapsed := 0
    last_apple_spawn := 0
    state := "playing" }

/-- Method `Game.reset` (game.py lines 413-430).  Every modeled field is reassigned
by the method, so the previous state is irrelevant. -/
def Game.reset (_g : GameState) : GameState := initialState

/-- The loop `for apple in list(self.apples)` of `handle_collisions` (game.py
lines 480-485, 518): find the first apple, in container iteration order, that
is not collected and whose rect strictly overlaps the boy's, returning it with
the list of all the other apples in order; `none` if there is no such apple. -/
def findCollision (boyR : Rect) : List Apple → Option (Apple × List Apple)
  | [] => none
  | a :: rest =>
    if !a.collected && Rect.colliderect boyR a.rect then
      some (a, rest)
    else
      (findCollision boyR rest).map (fun p => (p.1, a :: p.2))

/-- Method `Game.handle_collisions` (game.py lines 478-518), with the classifier call
made explicit as a function argument.  On the first colliding uncollected
apple: trigger the pick animation, call the classifier (its result `label,
confidence, _` is bound but unused — the gameplay outcome is decided by the
apple's pre-assigned quality), then either score the good apple and spawn a
flying effect toward the basket, or pay one lifeline (`max(0, lifelines - 1)`,
which is ℕ subtraction here) for a rotten one; the apple is killed (removed)
either way and the loop breaks. -/
def Game.handle_collisions (classify : Apple → ClassifierResult) (g : GameState) : GameState :=
  match findCollision (Boy.rect g.boy) g.apples with
  | none => g
  | some (apple, rest) =>
    let boy2 := Boy.play_pick_animation g.boy
    let _cls := classify apple
    let is_good : Bool := apple.quality == "good"
    if is_good then
      { g with boy := boy2
               apples := rest
               score := g.score + 1
               good_collected := g.good_collected + 1
               effects := g.effects ++ [FlyEffect.spawn (Rect.center apple.rect) basketCenter] }
    else
      { g with boy := boy2
               apples := rest
               lifelines := g.lifelines - 1
               rotten_collected := g.rotten_collected + 1 }

/-- All the frame-local inputs of one iteration of `Game.run` (game.py lines
434-474): the tick's time delta, whether a SPACE keydown event occurred, the
held movement keys, the random draws a spawn would consume, and the
classifier. -/
structure FrameInput where
  dt : ℚ
  space_pressed : Bool
  keys : Keys
  spawn_x : Int
  spawn_quality_draw : ℚ
  spawn_jitter : Int
  spawn_radius : Int
  classify : Apple → ClassifierResult

/-- Event handling of `Game.run` (game.py lines 437-444): a SPACE keydown
while ended calls `reset`.  Quit events terminate the process and are outside
the modeled state. -/
def Game.handleEvents (space_pressed : Bool) (g : GameState) : GameState :=
  if g.state = "ended" ∧ space_pressed = true then Game.reset g else g

/-- Apple spawning (game.py lines 453-459): once 1.5 s have passed since the
last spawn, append one new apple and record the spawn time. -/
def Game.spawnStage (inp : FrameInput) (g : GameState) : GameState :=
  if g.elapsed - g.last_apple_spawn ≥ APPLE_SPAWN_RATE then
    { g with apples := g.apples ++
               [Apple.spawn inp.spawn_x inp.spawn_quality_draw inp.spawn_jitter inp.spawn_radius]
             last_apple_spawn := g.elapsed }
  else g

/-- Stage `self.apples.update(dt)` (game.py line 462): every apple falls; the ones
that left the screen are removed. -/
def Game.updateApplesStage (dt : ℚ) (g : GameState) : GameState :=
  { g with apples := g.apples.filterMap (Apple.update dt) }

/-- Stage `self.effects.update(dt)` (game.py line 465): every effect advances; the
expired ones are removed. -/
def Game.updateEffectsStage (dt : ℚ) (g : GameState) : GameState :=
  { g with effects := g.effects.filterMap (FlyEffect.update dt) }

/-- End-condition evaluation (game.py lines 471-472): `if lifelines <= 0`,
the state becomes "ended". -/
def Game.endCheck (g : GameState) : GameState :=
  if g.lifelines ≤ 0 then { g with state := "ended" } else g

/-- The playing branch of one `Game.run` iteration (game.py lines 447-472):
advance elapsed time, update the boy, spawn, update apples and effects,
resolve collisions, then evaluate the end condition.  A state that is not
"playing" is untouched. -/
def Game.playStep (inp : FrameInput) (g : GameState) : GameState :=
  if g.state = "playing" then
    let g1 : GameState := { g with elapsed := g.elapsed + inp.dt }
    let g2 : GameState := { g1 with boy := Boy.update inp.keys inp.dt g1.boy }
    let g3 := Game.spawnStage inp g2
    let g4 := Game.updateApplesStage inp.dt g3
    let g5 := Game.updateEffectsStage inp.dt g4
    let g6 := Game.handle_collisions inp.classify g5
    Game.endCheck g6
  else g

/-- One full iteration of the `Game.run` loop (game.py lines 434-474): event
handling, then the playing branch.  `draw` reads but never writes the modeled
state and is omitted. -/
def Game.frame (inp : FrameInput) (g : GameState) : GameState :=
  Game.playStep inp (Game.handleEvents inp.space_pressed g)

/-- States reachable in a run of the game: the constructor ends in `reset`
(game.py line 411), and every loop iteration applies `Game.frame`. -/
inductive Reachable : GameState → Prop where
  | init : Reachable initialState
  | step (inp : FrameInput) {g : GameState} : Reachable g → Reachable (Game.frame inp g)

/-- The round invariant of the session counters: lifelines stay within the
initial allotment and a round with no lifeline left has ended. -/
def Inv (g : GameState) : Prop :=
  g.lifelines ≤ 3 ∧ (g.lifelines = 0 → g.state = "ended")

/-- A classifier stub used to instantiate theorems on concrete inputs. -/
def classifyW : Apple → ClassifierResult := fun _ => ("good", 1, [])

/-- A second classifier stub, answering differently from `classifyW`. -/
def classifyW2 : Apple → ClassifierResult := fun _ => ("damaged", 1/2, [1/2, 1/2])

/-- A good apple whose rect overlaps the freshly constructed boy's rect. -/
def appleW : Apple :=
  { quality := "good", rect := { x := 460, y := 380, w := 56, h := 66 },
    collected := false, fall_speed := 200 }

/-- A damaged apple whose rect overlaps the freshly constructed boy's rect. -/
def appleDmg : Apple :=
  { quality := "damaged", rect := { x := 465, y := 390, w := 56, h := 66 },
    collected := false, fall_speed := 210 }

/-- A second good apple overlapping the boy, behind `appleW` in spawn order. -/
def appleW2 : Apple :=
  { quality := "good", rect := { x := 440, y := 360, w := 60, h := 70 },
    collected := false, fall_speed := 190 }

/-- A high apple far from the boy, used for fall-update instances. -/
def appleFar : Apple :=
  { quality := "good", rect := { x := 100, y := 0, w := 56, h := 66 },
    collected := false, fall_speed := 200 }

/-- The apple `appleFar` after one `Apple.update` tick of a full second: the rect falls
by 200 pixels. -/
def appleFar2 : Apple :=
  { quality := "good", rect := { x := 100, y := 200, w := 56, h := 66 },
    collected := false, fall_speed := 200 }

/-- A playing state with the single colliding apple `appleW`. -/
def gW : GameState := { initialState with apples := [appleW] }

/-- A playing state with one lifeline and the colliding apple `appleDmg`. -/
def gDmg : GameState := { initialState with apples := [appleDmg], lifelines := 1 }

/-- A playing state with two colliding apples in spawn order. -/
def gTwo : GameState := { initialState with apples := [appleW, appleW2] }

/-- An ended state. -/
def gEnded : GameState := { initialState with state := "ended", lifelines := 0 }

/-- A frame input with no SPACE event and no held keys. -/
def inpW : FrameInput :=
  { dt := 1/60, space_pressed := false, keys := { left := false, right := false },
    spawn_x := 200, spawn_quality_draw := 1/2, spawn_jitter := 0, spawn_radius := 30,
    classify := classifyW }

/-- A frame input carrying a SPACE keydown event. -/
def inpSpace : FrameInput :=
  { dt := 1/60, space_pressed := true, keys := { left := false, right := false },
    spawn_x := 200, spawn_quality_draw := 1/2, spawn_jitter := 0, spawn_radius := 30,
    classify := classifyW }

/-- The collision handler is a constant function of the classifier: its
let-bound result is never consumed. -/
theorem handle_collisions_classify_eq (c₁ c₂ : Apple → ClassifierResult) (g : GameState) :
    Game.handle_collisions c₁ g = Game.handle_collisions c₂ g := by
  unfold Game.handle_collisions
  cases findCollision (Boy.rect g.boy) g.apples with
  | none => rfl
  | some p => rfl

/-- The spawn stage reads only the spawn draws of the frame input, not the
classifier. -/
theorem spawnStage_classify_eq (g : GameState) (dt : ℚ) (sp : Bool) (k : Keys)
    (sx : Int) (qd : ℚ) (sj sr : Int) (c₁ c₂ : Apple → ClassifierResult) :
    Game.spawnStage ⟨dt, sp, k, sx, qd, sj, sr, c₁⟩ g =
      Game.spawnStage ⟨dt, sp, k, sx, qd, sj, sr, c₂⟩ g := rfl

/-- A frame on an ended state with no SPACE event leaves the state untouched. -/
theorem frame_ended_eq (g : GameState) (inp : FrameInput)
    (hend : g.state = "ended") (hsp : inp.space_pressed = false) :
    Game.frame inp g = g := by
  have h1 : Game.handleEvents inp.space_pressed g = g := by
    unfold Game.handleEvents
    rw [hsp]
    simp
  unfold Game.frame
  rw [h1]
  unfold Game.playStep
  rw [hend]
  rw [if_neg (by decide : ¬ ("ended" : String) = "playing")]

/-- C1: the resolved game state of a frame — score, good/rotten counters,
lifelines, session state, apples and effects — depends only on the apples'
pre-assigned quality flags and never on what the classifier returns: two frame
updates that differ only in the classifier function produce identical states. -/
theorem c1_classifier_independent (g : GameState) (dt : ℚ) (sp : Bool) (k : Keys)
    (sx : Int) (qd : ℚ) (sj sr : Int) (c₁ c₂ : Apple → ClassifierResult) :
    Game.frame ⟨dt, sp, k, sx, qd, sj, sr, c₁⟩ g =
      Game.frame ⟨dt, sp, k, sx, qd, sj, sr, c₂⟩ g := by
  unfold Game.frame Game.playStep
  dsimp only
  rw [handle_collisions_classify_eq c₁ c₂, spawnStage_classify_eq _ _ _ _ _ _ _ _ c₁ c₂]

/-- C10: a frame processed while the session state is "ended" with no restart
key event leaves the entire game state — counters, lifelines, elapsed time,
spawn deadline, player, apples and effects — unchanged. -/
theorem c10_ended_frame_frozen (g : GameState) (inp : FrameInput)
    (hend : g.state = "ended") (hsp : inp.space_pressed = false) :
    Game.frame inp g = g :=
  frame_ended_eq g inp hend hsp

/-- Witness for C10 on the concrete ended state `gEnded`. -/
theorem c10_ended_frame_frozen_witness :
    gEnded.state = "ended" ∧ inpW.space_pressed = false ∧
      Game.frame inpW gEnded = gEnded :=
  ⟨rfl, rfl, c10_ended_frame_frozen gEnded inpW rfl rfl⟩

/-- C5: after any call to `reset` — in particular the SPACE restart while
ended, whose event handling is exactly a `reset` — score, good and rotten
counters and elapsed time are 0, lifelines equal the initial 3, the apple and
effect collections are empty, and the session state is "playing". -/
theorem c5_reset_state (g : GameState) (inp : FrameInput)
    (hend : g.state = "ended") (hsp : inp.space_pressed = true) :
    (Game.reset g).score = 0 ∧ (Game.reset g).good_collected = 0 ∧
    (Game.reset g).rotten_collected = 0 ∧ (Game.reset g).elapsed = 0 ∧
    (Game.reset g).lifelines = LIFELINES ∧ LIFELINES = 3 ∧
    (Game.reset g).apples = [] ∧ (Game.reset g).effects = [] ∧
    (Game.reset g).state = "playing" ∧
    Game.handleEvents inp.space_pressed g = Game.reset g := by
  refine ⟨rfl, rfl, rfl, rfl, rfl, rfl, rfl, rfl, rfl, ?_⟩
  unfold Game.handleEvents
  rw [hend, hsp]
  simp

/-- Witness for C5 on the concrete ended state `gEnded` and SPACE input. -/
theorem c5_reset_state_witness :
    gEnded.state = "ended" ∧ inpSpace.space_pressed = true ∧
      (Game.reset gEnded).score = 0 ∧ (Game.reset gEnded).lifelines = 3 ∧
      (Game.reset gEnded).apples = [] ∧ (Game.reset gEnded).state = "playing" ∧
      Game.handleEvents inpSpace.space_pressed gEnded = Game.reset gEnded := by
  have h := c5_reset_state gEnded inpSpace rfl rfl
  exact ⟨rfl, rfl, h.1, by rw [h.2.2.2.2.1]; rfl, h.2.2.2.2.2.2.1, h.2.2.2.2.2.2.2.2.1,
    h.2.2.2.2.2.2.2.2.2⟩

/-- The horizontal position written by `Boy.update` is a function of the held
keys, the time delta and the previous position alone; the animation fields
never influence it. -/
theorem boy_update_x (keys : Keys) (dt : ℚ) (b : Boy) :
    (Boy.update keys dt b).x =
      if keys.left then max 50 (min (WIDTH - 50) (truncQ ((b.x : ℚ) - BOY_SPEED * dt)))
      else if keys.right then max 50 (min (WIDTH - 50) (truncQ ((b.x : ℚ) + BOY_SPEED * dt)))
      else b.x := by
  unfold Boy.update
  dsimp only
  by_cases hp : b.animation_state = "picking" ∧ b.picking_timer + dt > 2/5 <;>
    cases hl : keys.left <;> cases hr : keys.right <;>
      simp [hp, apply_ite Boy.x]

/-- C6: if the boy's horizontal position lies in `[50, WIDTH - 50]` before an
update, it lies in that interval after the update, whichever direction keys
are held and for however long (any `dt`). -/
theorem c6_position_clamped (b : Boy) (keys : Keys) (dt : ℚ)
    (h1 : 50 ≤ b.x) (h2 : b.x ≤ WIDTH - 50) :
    50 ≤ (Boy.update keys dt b).x ∧ (Boy.update keys dt b).x ≤ WIDTH - 50 := by
  rw [boy_update_x]
  split_ifs with hl hr
  · exact ⟨le_max_left _ _, max_le (by decide) (min_le_left _ _)⟩
  · exact ⟨le_max_left _ _, max_le (by decide) (min_le_left _ _)⟩
  · exact ⟨h1, h2⟩

/-- Witness for C6: a held left key for one tick keeps the fresh boy in
bounds. -/
theorem c6_position_clamped_witness :
    50 ≤ Boy.init.x ∧ Boy.init.x ≤ WIDTH - 50 ∧
      (50 ≤ (Boy.update { left := true, right := false } (1/60) Boy.init).x ∧
       (Boy.update { left := true, right := false } (1/60) Boy.init).x ≤ WIDTH - 50) :=
  ⟨by decide, by decide,
   c6_position_clamped Boy.init { left := true, right := false } (1/60)
     (by decide) (by decide)⟩

/-- While the picking animation is within its 0.4 s window, `Boy.update`
leaves the displayed state "picking" whatever keys are held. -/
theorem boy_update_picking_persists (keys : Keys) (dt : ℚ) (b : Boy)
    (hpick : b.animation_state = "picking") (hle : b.picking_timer + dt ≤ 2/5) :
    (Boy.update keys dt b).animation_state = "picking" := by
  unfold Boy.update
  dsimp only
  cases hl : keys.left <;> cases hr : keys.right <;> simp [hpick, not_lt.mpr hle]

/-- Once the picking timer passes 0.4 s, `Boy.update` expires the animation:
the state becomes "walking" when a direction key is held and "idle"
otherwise. -/
theorem boy_update_picking_expires (keys : Keys) (dt : ℚ) (b : Boy)
    (hpick : b.animation_state = "picking") (hgt : b.picking_timer + dt > 2/5) :
    (Boy.update keys dt b).animation_state =
      (if keys.left ∨ keys.right then "walking" else "idle") := by
  unfold Boy.update
  dsimp only
  cases hl : keys.left <;> cases hr : keys.right <;> simp [hpick, hgt]

/-- C9: every collection triggers the pick animation with its timer reset to
zero, even when a pick is already in progress; the "picking" state overrides
walking/idle until it auto-expires after 0.4 s; and held direction keys still
move the player while picking: the written position is the same as it would be
in any other animation state. -/
theorem c9_pick_animation (b bp b₁ b₂ : Boy) (keys : Keys) (dt : ℚ)
    (g : GameState) (c : Apple → ClassifierResult) (hit : Apple × List Apple)
    (hfind : findCollision (Boy.rect g.boy) g.apples = some hit)
    (hpick : bp.animation_state = "picking")
    (hx : b₁.x = b₂.x) :
    (Boy.play_pick_animation b).animation_state = "picking" ∧
    (Boy.play_pick_animation b).picking_timer = 0 ∧
    (Game.handle_collisions c g).boy = Boy.play_pick_animation g.boy ∧
    (bp.picking_timer + dt ≤ 2/5 →
      (Boy.update keys dt bp).animation_state = "picking") ∧
    (bp.picking_timer + dt > 2/5 →
      (Boy.update keys dt bp).animation_state =
        (if keys.left ∨ keys.right then "walking" else "idle")) ∧
    (Boy.update keys dt b₁).x = (Boy.update keys dt b₂).x := by
  refine ⟨rfl, rfl, ?_, fun hle => boy_update_picking_persists keys dt bp hpick hle,
    fun hgt => boy_update_picking_expires keys dt bp hpick hgt, ?_⟩
  · unfold Game.handle_collisions
    rw [hfind]
    obtain ⟨a, rest⟩ := hit
    dsimp only
    split <;> rfl
  · rw [boy_update_x, boy_update_x, hx]

/-- Witness for C9: a boy freshly sent picking, a colliding apple, and two
boys sharing a position. -/
theorem c9_pick_animation_witness :
    findCollision (Boy.rect gW.boy) gW.apples = some (appleW, []) ∧
    (Boy.play_pick_animation Boy.init).animation_state = "picking" ∧
    ((Boy.play_pick_animation Boy.init).picking_timer + 1/60 ≤ 2/5 →
      (Boy.update { left := true, right := false } (1/60)
        (Boy.play_pick_animation Boy.init)).animation_state = "picking") ∧
    (Boy.update { left := true, right := false } (1/60)
        (Boy.play_pick_animation Boy.init)).x =
      (Boy.update { left := true, right := false } (1/60) Boy.init).x := by
  have h := c9_pick_animation Boy.init (Boy.play_pick_animation Boy.init)
    (Boy.play_pick_animation Boy.init) Boy.init { left := true, right := false } (1/60)
    gW classifyW (appleW, []) (by decide) rfl rfl
  exact ⟨by decide, h.1, h.2.2.2.1, h.2.2.2.2.2⟩

/-- C2: the outcome resolved for the colliding apple follows the outcome
table.  Quality "good": score and basket count each rise by exactly 1, the
apple is destroyed, exactly one flying effect is spawned toward the basket,
and lifelines and the rotten count are untouched.  Quality "damaged": one
lifeline is paid, floored at 0, the rotten count rises by exactly 1, the apple
is destroyed, and no effect, score or basket count change occurs. -/
theorem c2_outcome_table (g : GameState) (c : Apple → ClassifierResult)
    (a : Apple) (rest : List Apple)
    (h : findCollision (Boy.rect g.boy) g.apples = some (a, rest)) :
    (a.quality = "good" →
       (Game.handle_collisions c g).score = g.score + 1 ∧
       (Game.handle_collisions c g).good_collected = g.good_collected + 1 ∧
       (Game.handle_collisions c g).apples = rest ∧
       (Game.handle_collisions c g).effects =
         g.effects ++ [FlyEffect.spawn (Rect.center a.rect) basketCenter] ∧
       (Game.handle_collisions c g).lifelines = g.lifelines ∧
       (Game.handle_collisions c g).rotten_collected = g.rotten_collected) ∧
    (a.quality = "damaged" →
       ((Game.handle_collisions c g).lifelines : Int) = max 0 ((g.lifelines : Int) - 1) ∧
       (Game.handle_collisions c g).rotten_collected = g.rotten_collected + 1 ∧
       (Game.handle_collisions c g).apples = rest ∧
       (Game.handle_collisions c g).effects = g.effects ∧
       (Game.handle_collisions c g).score = g.score ∧
       (Game.handle_collisions c g).good_collected = g.good_collected) := by
  unfold Game.handle_collisions
  rw [h]
  dsimp only
  constructor
  · intro hq
    rw [hq]
    simp
  · intro hq
    rw [hq]
    rw [show ("damaged" == "good") = false from rfl]
    simp only [Bool.false_eq_true, if_false]
    exact ⟨by omega, by trivial, by trivial, by trivial, by trivial, by trivial⟩

/-- Witness for C2, good branch on `gW` and damaged branch on `gDmg`. -/
theorem c2_outcome_table_witness :
    findCollision (Boy.rect gW.boy) gW.apples = some (appleW, []) ∧
    appleW.quality = "good" ∧
    (Game.handle_collisions classifyW gW).score = gW.score + 1 ∧
    (Game.handle_collisions classifyW gW).apples = [] ∧
    findCollision (Boy.rect gDmg.boy) gDmg.apples = some (appleDmg, []) ∧
    appleDmg.quality = "damaged" ∧
    ((Game.handle_collisions classifyW gDmg).lifelines : Int) =
      max 0 ((gDmg.lifelines : Int) - 1) := by
  have hg := c2_outcome_table gW classifyW appleW [] (by decide)
  have hd := c2_outcome_table gDmg classifyW appleDmg [] (by decide)
  exact ⟨by decide, rfl, (hg.1 rfl).1, (hg.1 rfl).2.2.1, by decide, rfl, (hd.2 rfl).1⟩

/-- The collision loop returns the first qualifying apple, skipping every
earlier apple that is collected or not overlapping, and keeps all the other
apples, in order. -/
theorem findCollision_first (boyR : Rect) (pre post : List Apple) (a : Apple)
    (hpre : ∀ b ∈ pre, (!b.collected && Rect.colliderect boyR b.rect) = false)
    (ha : (!a.collected && Rect.colliderect boyR a.rect) = true) :
    findCollision boyR (pre ++ a :: post) = some (a, pre ++ post) := by
  induction pre with
  | nil => simp [findCollision, ha]
  | cons b bs ih =>
    have hb := hpre b (by simp)
    have ihh := ih (fun x hx => hpre x (List.mem_cons_of_mem b hx))
    simp [findCollision, hb, ihh]

/-- C3: among all alive, uncollected apples overlapping the player, exactly
the first one in container iteration order is resolved in a frame; every
other apple — in particular every later overlapping one — is left in place,
alive and uncollected, its record unchanged. -/
theorem c3_first_collision_wins (g : GameState) (c : Apple → ClassifierResult)
    (pre post : List Apple) (a : Apple)
    (hsplit : g.apples = pre ++ a :: post)
    (hpre : ∀ b ∈ pre, (!b.collected && Rect.colliderect (Boy.rect g.boy) b.rect) = false)
    (ha : (!a.collected && Rect.colliderect (Boy.rect g.boy) a.rect) = true) :
    (Game.handle_collisions c g).apples = pre ++ post := by
  unfold Game.handle_collisions
  rw [hsplit, findCollision_first (Boy.rect g.boy) pre post a hpre ha]
  dsimp only
  split <;> rfl

/-- Witness for C3 on `gTwo`, whose two apples both overlap the boy: only the
first is resolved, the second stays. -/
theorem c3_first_collision_wins_witness :
    gTwo.apples = [] ++ appleW :: [appleW2] ∧
    (!appleW.collected && Rect.colliderect (Boy.rect gTwo.boy) appleW.rect) = true ∧
    (!appleW2.collected && Rect.colliderect (Boy.rect gTwo.boy) appleW2.rect) = true ∧
    (Game.handle_collisions classifyW gTwo).apples = [] ++ [appleW2] := by
  refine ⟨rfl, by decide, by decide, ?_⟩
  exact c3_first_collision_wins gTwo classifyW [] [appleW2] appleW rfl
    (fun b hb => absurd hb (List.not_mem_nil b)) (by decide)

/-- What the collision loop guarantees about its result: the resolved apple
comes from the list, is uncollected and overlapping, and every apple of the
remainder also comes from the list (with its record unchanged). -/
theorem findCollision_spec (boyR : Rect) :
    ∀ (l : List Apple) (a : Apple) (rest : List Apple),
      findCollision boyR l = some (a, rest) →
      a ∈ l ∧ a.collected = false ∧ Rect.colliderect boyR a.rect = true ∧
        ∀ b ∈ rest, b ∈ l := by
  intro l
  induction l with
  | nil => intro a rest h; simp [findCollision] at h
  | cons c cs ih =>
    intro a rest h
    rw [findCollision] at h
    split at h
    · next hcond =>
      rw [Option.some.injEq, Prod.mk.injEq] at h
      rw [Bool.and_eq_true, Bool.not_eq_true'] at hcond
      refine ⟨?_, ?_, ?_, fun b hb => ?_⟩
      · rw [← h.1]; exact List.mem_cons_self c cs
      · rw [← h.1]; exact hcond.1
      · rw [← h.1]; exact hcond.2
      · rw [← h.2] at hb
        exact List.mem_cons_of_mem c hb
    · next hcond =>
      rw [Option.map_eq_some'] at h
      obtain ⟨p, hfind, hmap⟩ := h
      simp only [Prod.mk.injEq] at hmap
      obtain ⟨hmem, hcol, hrect, hsub⟩ := ih p.1 p.2 hfind
      refine ⟨?_, ?_, ?_, fun b hb => ?_⟩
      · rw [← hmap.1]; exact List.mem_cons_of_mem c hmem
      · rw [← hmap.1]; exact hcol
      · rw [← hmap.1]; exact hrect
      · rw [← hmap.2] at hb
        rcases List.mem_cons.mp hb with hb | hb
        · exact hb ▸ List.mem_cons_self c cs
        · exact List.mem_cons_of_mem c (hsub b hb)

/-- C8: an apple's quality is fixed at construction by the weighted coin flip
— "good" exactly when the uniform draw is below 0.65, "damaged" otherwise —
and is never mutated afterwards: the fall update keeps quality (and the
collected flag), and every apple surviving a collision resolution is an
unchanged record of the previous frame; moreover the resolved apple is always
one whose collected flag is false, so no apple undergoes a second outcome. -/
theorem c8_quality_coin_flip_immutable (x jitter radius : Int) (qd dt : ℚ)
    (a a' : Apple) (c : Apple → ClassifierResult) (g : GameState) (b : Apple)
    (hit : Apple × List Apple)
    (hupd : Apple.update dt a = some a')
    (hmem : b ∈ (Game.handle_collisions c g).apples)
    (hfind : findCollision (Boy.rect g.boy) g.apples = some hit) :
    ((Apple.spawn x qd jitter radius).quality = "good" ↔ qd < 13/20) ∧
    ((Apple.spawn x qd jitter radius).quality = "good" ∨
      (Apple.spawn x qd jitter radius).quality = "damaged") ∧
    (Apple.spawn x qd jitter radius).collected = false ∧
    a'.quality = a.quality ∧ a'.collected = a.collected ∧
    b ∈ g.apples ∧
    hit.1.collected = false := by
  obtain ⟨ha, rest⟩ := hit
  have hspec := findCollision_spec (Boy.rect g.boy) g.apples ha rest hfind
  refine ⟨?_, ?_, rfl, ?_, ?_, ?_, hspec.2.1⟩
  · unfold Apple.spawn
    dsimp only
    split
    · next hlt => simp [hlt]
    · next hlt => simp [hlt]
  · unfold Apple.spawn
    dsimp only
    split
    · exact Or.inl rfl
    · exact Or.inr rfl
  · unfold Apple.update at hupd
    dsimp only at hupd
    split at hupd
    · exact absurd hupd (by simp)
    · rw [Option.some.injEq] at hupd
      rw [← hupd]
  · unfold Apple.update at hupd
    dsimp only at hupd
    split at hupd
    · exact absurd hupd (by simp)
    · rw [Option.some.injEq] at hupd
      rw [← hupd]
  · unfold Game.handle_collisions at hmem
    rw [hfind] at hmem
    dsimp only at hmem
    split at hmem <;> exact hspec.2.2.2 b hmem

/-- One fall tick of a full second on `appleFar` moves its rect down by its
fall speed of 200 pixels. -/
theorem appleFar_update : Apple.update 1 appleFar = some appleFar2 := by
  norm_num [Apple.update, truncQ, appleFar, appleFar2, HEIGHT]

/-- Witness for C8: a concrete spawn draw, a fall tick on `appleFar`, and a
collision resolution on `gTwo`. -/
theorem c8_quality_coin_flip_immutable_witness :
    Apple.update 1 appleFar = some appleFar2 ∧
    appleW2 ∈ (Game.handle_collisions classifyW gTwo).apples ∧
    findCollision (Boy.rect gTwo.boy) gTwo.apples = some (appleW, [appleW2]) ∧
    ((Apple.spawn 200 (1/2) 0 30).quality = "good" ↔ (1/2 : ℚ) < 13/20) ∧
    appleFar2.quality = appleFar.quality ∧
    appleW2 ∈ gTwo.apples ∧
    appleW.collected = false := by
  have h := c8_quality_coin_flip_immutable 200 0 30 (1/2) 1 appleFar appleFar2
    classifyW gTwo appleW2 (appleW, [appleW2]) appleFar_update (by decide) (by decide)
  exact ⟨appleFar_update, by decide, by decide, h.1, h.2.2.2.1, h.2.2.2.2.2.1,
    h.2.2.2.2.2.2⟩

/-- C7: the effect's display center at progress `t = elapsed / duration` is
the straight-line blend of start and end displaced vertically upward by
`arcAmp * sin(t * pi)` with `arcAmp = 60`, inside the specified 50–60 band:
at `t = 0` it is the start point, at `t = 1` the end point, at the midpoint it
is the blend displaced upward by the full arc amplitude; the effect
self-destroys exactly when its elapsed time reaches the duration, and the
effects-update stage never mutates score or lifelines. -/
theorem c7_effect_arc (s e : ℝ × ℝ) (fx : FlyEffect) (dt : ℚ) (g : GameState) :
    effectCenter s e 0 = s ∧
    effectCenter s e 1 = e ∧
    (effectCenter s e (1/2)).1 = (lerpPos s e (1/2)).1 ∧
    (effectCenter s e (1/2)).2 = (lerpPos s e (1/2)).2 - arcAmp ∧
    (50 : ℝ) ≤ arcAmp ∧ arcAmp ≤ 60 ∧
    (FlyEffect.update dt fx = none ↔ fx.duration ≤ fx.elapsed + dt) ∧
    (Game.updateEffectsStage dt g).score = g.score ∧
    (Game.updateEffectsStage dt g).lifelines = g.lifelines := by
  refine ⟨?_, ?_, rfl, ?_, ?_, ?_, ?_, rfl, rfl⟩
  · unfold effectCenter lerpPos arcOffset
    refine Prod.ext_iff.mpr ⟨?_, ?_⟩
    · show s.1 + (e.1 - s.1) * 0 = s.1
      ring
    · show (s.2 + (e.2 - s.2) * 0) - arcAmp * Real.sin (0 * Real.pi) = s.2
      rw [zero_mul, Real.sin_zero]
      ring
  · unfold effectCenter lerpPos arcOffset
    refine Prod.ext_iff.mpr ⟨?_, ?_⟩
    · show s.1 + (e.1 - s.1) * 1 = e.1
      ring
    · show (s.2 + (e.2 - s.2) * 1) - arcAmp * Real.sin (1 * Real.pi) = e.2
      rw [one_mul, Real.sin_pi]
      ring
  · show (lerpPos s e (1/2)).2 - arcOffset (1/2) = (lerpPos s e (1/2)).2 - arcAmp
    unfold arcOffset
    rw [show (1/2 : ℝ) * Real.pi = Real.pi / 2 by ring, Real.sin_pi_div_two, mul_one]
  · norm_num [arcAmp]
  · norm_num [arcAmp]
  · unfold FlyEffect.update
    dsimp only
    split
    · next hge => exact ⟨fun _ => hge, fun _ => rfl⟩
    · next hlt => simp [hlt]

/-- The collision handler can only keep or decrement the lifeline count. -/
theorem handle_collisions_lifelines_le (c : Apple → ClassifierResult) (g : GameState) :
    (Game.handle_collisions c g).lifelines ≤ g.lifelines := by
  unfold Game.handle_collisions
  cases h : findCollision (Boy.rect g.boy) g.apples with
  | none => exact Nat.le_refl _
  | some p =>
    obtain ⟨a, rest⟩ := p
    dsimp only
    split
    · exact Nat.le_refl _
    · exact Nat.sub_le _ _

/-- Spawning changes neither the lifeline count nor the session state. -/
theorem spawnStage_lifelines (inp : FrameInput) (g : GameState) :
    (Game.spawnStage inp g).lifelines = g.lifelines := by
  unfold Game.spawnStage
  split <;> rfl

/-- The apple fall stage keeps the lifeline count. -/
theorem updateApplesStage_lifelines (dt : ℚ) (g : GameState) :
    (Game.updateApplesStage dt g).lifelines = g.lifelines := rfl

/-- The effects stage keeps the lifeline count. -/
theorem updateEffectsStage_lifelines (dt : ℚ) (g : GameState) :
    (Game.updateEffectsStage dt g).lifelines = g.lifelines := rfl

/-- The end check keeps the lifeline count. -/
theorem endCheck_lifelines (g : GameState) :
    (Game.endCheck g).lifelines = g.lifelines := by
  unfold Game.endCheck
  split <;> rfl

/-- After the end check, a state out of lifelines has ended. -/
theorem endCheck_ended (g : GameState) :
    (Game.endCheck g).lifelines = 0 → (Game.endCheck g).state = "ended" := by
  unfold Game.endCheck
  split
  · intro _
    rfl
  · next h =>
    intro h0
    exact absurd (Nat.le_of_eq h0) h

/-- The playing branch of a frame preserves the round invariant. -/
theorem playStep_inv (inp : FrameInput) (g : GameState) (h : Inv g) :
    Inv (Game.playStep inp g) := by
  unfold Game.playStep
  split
  · refine ⟨?_, endCheck_ended _⟩
    rw [endCheck_lifelines]
    calc (Game.handle_collisions inp.classify _).lifelines
        ≤ _ := handle_collisions_lifelines_le _ _
      _ = g.lifelines := by
          rw [updateEffectsStage_lifelines, updateApplesStage_lifelines,
            spawnStage_lifelines]
      _ ≤ 3 := h.1
  · exact h

/-- Event handling preserves the round invariant: a reset restores it from
scratch. -/
theorem handleEvents_inv (sp : Bool) (g : GameState) (h : Inv g) :
    Inv (Game.handleEvents sp g) := by
  unfold Game.handleEvents
  split
  · exact show Inv initialState from ⟨by decide, fun h0 => absurd h0 (by decide)⟩
  · exact h

/-- C4: on every reachable game state, lifelines lie in `[0, 3]` (they are a
natural number bounded by 3); a state out of lifelines has session state
"ended" — the end condition fires on the same frame the count reaches 0 —
and an ended state stays ended across any frame without a restart input. -/
theorem c4_lifelines_invariant (g : GameState) (inp : FrameInput) (hg : Reachable g) :
    g.lifelines ≤ 3 ∧ (g.lifelines = 0 → g.state = "ended") ∧
    (g.state = "ended" → inp.space_pressed = false →
      (Game.frame inp g).state = "ended") := by
  have hInv : Inv g := by
    induction hg with
    | init => exact ⟨by decide, fun h0 => absurd h0 (by decide)⟩
    | step inp' hg' ih =>
      exact playStep_inv inp' _ (handleEvents_inv inp'.space_pressed _ ih)
  refine ⟨hInv.1, hInv.2, fun hend hsp => ?_⟩
  rw [frame_ended_eq g inp hend hsp]
  exact hend

/-- Witness for C4 at the initial state. -/
theorem c4_lifelines_invariant_witness :
    initialState.lifelines ≤ 3 ∧
    (initialState.lifelines = 0 → initialState.state = "ended") ∧
    (initialState.state = "ended" → inpW.space_pressed = false →
      (Game.frame inpW initialState).state = "ended") :=
  c4_lifelines_invariant initialState inpW Reachable.init

end AppleGame
